import Mathlib

/-!
Shallow embedding of the Reaction-Cleaner bot core (src/index.ts): the
resource locator (parseMessageUrl), the in-memory task map (cleaningTasks),
the durable registry (SQLite table tracked_messages), the scheduler
operations (startCleaning, stopCleaning, restoreCleaningTasks) and the
command handlers (enable-reaction-cleaning, disable-reaction-cleaning,
disable-all-cleaning) plus the SIGINT/SIGTERM shutdown path.
-/

namespace ReactionCleaner

/-- Channel kinds distinguished by the code (discord.js ChannelType values
tested at src/index.ts lines 211-223). -/
inductive ChannelKind where
  | guildText
  | guildAnnouncement
  | guildVoice
  | publicThread
  | privateThread
  | announcementThread
  | guildForum
  | otherKind
deriving DecidableEq, Repr

/-- The branch at src/index.ts lines 211-214: kinds cast to TextChannel. -/
def isTextLike : ChannelKind → Bool
  | .guildText => true
  | .guildAnnouncement => true
  | .guildVoice => true
  | _ => false

/-- The branch at src/index.ts lines 215-218: kinds cast to ThreadChannel. -/
def isThreadKind : ChannelKind → Bool
  | .publicThread => true
  | .privateThread => true
  | .announcementThread => true
  | _ => false

/-- The platform gateway (discord.js client): resolves a channel id to a
channel of some kind, and answers whether a message fetch inside a channel
succeeds (src/index.ts lines 202 and 229). External collaborator, modelled
as a pure oracle. -/
structure Gateway where
  fetchChannel : String → Option ChannelKind
  fetchMessage : String → String → Bool

/-- Row of the tracked_messages table (src/index.ts lines 110-115, 124-129). -/
structure TrackedMessage where
  message_url : String
  channel_id : String
  message_id : String
  added_at : Nat
deriving DecidableEq, Repr

/-- Result of parseMessageUrl: channel id and message id. -/
structure ResolvedTarget where
  channelId : String
  messageId : String
deriving DecidableEq, Repr

/-- Split a character list at every occurrence of `c` (the semantics of the
JavaScript `split` used on the pathname at src/index.ts line 179). -/
def splitOnChar (c : Char) : List Char → List (List Char)
  | [] => [[]]
  | a :: rest =>
      match splitOnChar c rest with
      | [] => if a = c then [[], []] else [[a]]
      | g :: gs => if a = c then [] :: g :: gs else (a :: g) :: gs

/-- Split a character list at the first occurrence of the scheme separator
"://"; `none` when the separator is absent. -/
def splitScheme : List Char → Option (List Char × List Char)
  | [] => none
  | ':' :: '/' :: '/' :: rest => some ([], rest)
  | a :: rest =>
      match splitScheme rest with
      | none => none
      | some (pre, post) => some (a :: pre, post)

/-- Model of the WHATWG URL parse performed by `new URL(messageUrl)` together
with the pathname split at src/index.ts lines 178-179: the string must have a
scheme, "://" and a nonempty host; the result is the list of nonempty path
segments after the host. A string without "://" (such as "not-a-url") makes
the URL constructor throw, hence `none`. -/
def urlPathParts (s : String) : Option (List String) :=
  match splitScheme s.data with
  | none => none
  | some (scheme, rest) =>
      if scheme = [] then none
      else
        match splitOnChar '/' rest with
        | [] => none
        | host :: segs =>
            if host = [] then none
            else some ((segs.filter (fun p => p ≠ [])).map (fun l => String.mk l))

/-- parseMessageUrl (src/index.ts lines 171-196): requires at least four
nonempty path segments with the first equal to "channels"; returns segments
at index 2 and 3 as channel id and message id. -/
def parseMessageUrl (messageUrl : String) : Option ResolvedTarget :=
  match urlPathParts messageUrl with
  | none => none
  | some pathParts =>
      if 4 ≤ pathParts.length ∧ pathParts.get? 0 = some "channels" then
        match pathParts.get? 2, pathParts.get? 3 with
        | some channelId, some messageId =>
            if 0 < channelId.length ∧ 0 < messageId.length then
              some ⟨channelId, messageId⟩
            else none
        | _, _ => none
      else none

example : parseMessageUrl "https://discord.com/channels/999/111/222"
    = some ⟨"111", "222"⟩ := by decide

example : parseMessageUrl "https://platform/containers/111/222" = none := by decide

example : parseMessageUrl "not-a-url" = none := by decide

/-- Outcomes of startCleaning other than success, by the error strings it
returns (src/index.ts lines 205, 221, 223, 232, 237). -/
inductive StartError where
  | channelNotFound
  | forumChannel
  | unsupportedChannelType
  | messageNotFound
  | alreadyActive
deriving DecidableEq, Repr

deriving instance DecidableEq for Except

/-- startCleaning (src/index.ts lines 199-259): fetch the channel, classify
its kind, fetch the message, then check the cleaningTasks map and register a
new interval under the message url. The in-memory task map cleaningTasks is
the set of urls that hold a live interval handle. -/
def startCleaning (gw : Gateway) (tasks : Finset String)
    (messageUrl channelId messageId : String) : Except StartError (Finset String) :=
  match gw.fetchChannel channelId with
  | none => .error .channelNotFound
  | some kind =>
      if isTextLike kind || isThreadKind kind then
        if gw.fetchMessage channelId messageId then
          if messageUrl ∈ tasks then .error .alreadyActive
          else .ok (insert messageUrl tasks)
        else .error .messageNotFound
      else if kind = .guildForum then .error .forumChannel
      else .error .unsupportedChannelType

/-- stopCleaning (src/index.ts lines 262-270): clear the interval and delete
the map entry when present; report whether a task existed. -/
def stopCleaning (tasks : Finset String) (messageUrl : String) :
    Bool × Finset String :=
  if messageUrl ∈ tasks then (true, tasks.erase messageUrl) else (false, tasks)

/-- INSERT OR IGNORE into tracked_messages (src/index.ts line 143): a row
whose primary key message_url is already present is left alone. -/
def insertOrIgnore (rows : List TrackedMessage) (r : TrackedMessage) :
    List TrackedMessage :=
  if rows.any (fun q => q.message_url = r.message_url) then rows else rows ++ [r]

/-- DELETE FROM tracked_messages WHERE message_url = ? (src/index.ts line 144). -/
def deleteByUrl (rows : List TrackedMessage) (url : String) : List TrackedMessage :=
  rows.filter (fun q => q.message_url ≠ url)

/-- Combined mutable state of the engine: the in-memory cleaningTasks map
(keys only; handles carry no further observable state) and the rows of the
durable tracked_messages table. -/
structure EngineState where
  tasks : Finset String
  records : List TrackedMessage
deriving DecidableEq

/-- One iteration of the restore loop (src/index.ts lines 278-287): attempt
startCleaning with the stored ids; on success keep the row, on any failure
delete the row from the database. -/
def restoreStep (gw : Gateway) (st : EngineState) (row : TrackedMessage) :
    EngineState :=
  match startCleaning gw st.tasks row.message_url row.channel_id row.message_id with
  | .ok tasks => { tasks := tasks, records := st.records }
  | .error _ => { tasks := st.tasks, records := deleteByUrl st.records row.message_url }

/-- restoreCleaningTasks (src/index.ts lines 273-288): getAllMessages.all()
materialises the row list once, then the loop mutates state row by row. -/
def restoreCleaningTasks (gw : Gateway) (st : EngineState) : EngineState :=
  st.records.foldl (restoreStep gw) st

/-- Per-url outcome inside the enable-reaction-cleaning handler
(src/index.ts lines 398-428): started, alreadyRunning, invalid, or errors. -/
inductive EnableOutcome where
  | started
  | alreadyRunning
  | invalidUrl
  | startFailed (e : StartError)
  | persistenceError
deriving DecidableEq, Repr

/-- One url of the enable-reaction-cleaning handler loop (src/index.ts lines
398-428): parse, startCleaning, then insert the row; when the insert throws,
report a database error and stopCleaning the just-created task. `insertOk`
models whether insertMessage.run throws; `now` the CURRENT_TIMESTAMP default. -/
def enableOne (gw : Gateway) (insertOk : Bool) (now : Nat)
    (st : EngineState) (url : String) : EnableOutcome × EngineState :=
  match parseMessageUrl url with
  | none => (.invalidUrl, st)
  | some t =>
      match startCleaning gw st.tasks url t.channelId t.messageId with
      | .ok tasks =>
          if insertOk then
            (.started,
             { tasks := tasks,
               records := insertOrIgnore st.records ⟨url, t.channelId, t.messageId, now⟩ })
          else
            (.persistenceError,
             { tasks := (stopCleaning tasks url).2, records := st.records })
      | .error .alreadyActive => (.alreadyRunning, st)
      | .error e => (.startFailed e, st)

/-- Per-url outcome inside the disable-reaction-cleaning handler. -/
inductive DisableOutcome where
  | stopped
  | notRunning
  | invalidUrl
deriving DecidableEq, Repr

/-- One url of the disable-reaction-cleaning handler loop (src/index.ts lines
462-483): parse, stopCleaning; only when a task existed is the database row
deleted, and a failed delete (`deleteOk = false`) is swallowed with the url
still reported as stopped. -/
def disableOne (deleteOk : Bool) (st : EngineState) (url : String) :
    DisableOutcome × EngineState :=
  match parseMessageUrl url with
  | none => (.invalidUrl, st)
  | some _ =>
      match stopCleaning st.tasks url with
      | (true, tasks) =>
          (.stopped,
           { tasks := tasks,
             records := if deleteOk then deleteByUrl st.records url else st.records })
      | (false, _) => (.notRunning, st)

/-- forEach stopCleaning over the keys of cleaningTasks (src/index.ts lines
506-508 and 607, 622). -/
def stopAllTasks (tasks : Finset String) : Finset String :=
  (tasks.sort (fun a b => a ≤ b)).foldl (fun t u => (stopCleaning t u).2) tasks

/-- The disable-all-cleaning handler (src/index.ts lines 497-518): when no
task is active it replies and returns without touching the database;
otherwise it stops every task and runs clearAllMessages (`clearOk` models
whether that statement throws). -/
def disableAllCmd (clearOk : Bool) (st : EngineState) : EngineState :=
  if st.tasks = ∅ then st
  else
    { tasks := stopAllTasks st.tasks,
      records := if clearOk then [] else st.records }

/-- Process-level state: the engine plus whether the database connection is
open. -/
structure ProcState where
  engine : EngineState
  dbOpen : Bool
deriving DecidableEq

/-- The SIGINT / SIGTERM handlers (src/index.ts lines 603-631): stopCleaning
every url in cleaningTasks, then db.close(). -/
def shutdownProc (p : ProcState) : ProcState :=
  { engine := { tasks := stopAllTasks p.engine.tasks, records := p.engine.records },
    dbOpen := false }

/-- One firing of the setInterval callback created at src/index.ts lines
241-250: it calls message.reactions.removeAll(); a throw is caught and only
logged. `cleanOk` is the outcome of the removeAll call; the returned engine
state is what the callback leaves behind. -/
def fireCleaning (cleanOk : Bool) (st : EngineState) : Bool × EngineState :=
  (cleanOk, st)

/-- The observable events that can touch the task map after a task is
registered: a callback firing (succeeding or failing), a
disable-reaction-cleaning command for some url, a disable-all-cleaning
command, or process shutdown. -/
inductive BotEvent where
  | fire (url : String) (cleanOk : Bool)
  | disableCmd (url : String) (deleteOk : Bool)
  | disableAllEvt (clearOk : Bool)
  | shutdownEvt
deriving DecidableEq, Repr

/-- Effect of one event on the engine state, each case delegating to the
embedded handler for that code path. -/
def stepEvent (st : EngineState) : BotEvent → EngineState
  | .fire _ cleanOk => (fireCleaning cleanOk st).2
  | .disableCmd url deleteOk => (disableOne deleteOk st url).2
  | .disableAllEvt clearOk => disableAllCmd clearOk st
  | .shutdownEvt => (shutdownProc ⟨st, true⟩).engine

/-- Run a sequence of events. -/
def runEvents (st : EngineState) (evs : List BotEvent) : EngineState :=
  evs.foldl stepEvent st

/-- Whether an event is one of the paths that can remove the task of `url`:
an explicit disable for that url, disable-all, or shutdown. -/
def stopsUrl (url : String) : BotEvent → Bool
  | .fire _ _ => false
  | .disableCmd u _ => u = url
  | .disableAllEvt _ => true
  | .shutdownEvt => true

/-- Whether an event is a callback firing. -/
def isFire : BotEvent → Bool
  | .fire _ _ => true
  | _ => false

/-- A concrete gateway for witnesses: channel "1" exists and is a guild text
channel, message "2" inside it resolves, nothing else does. -/
def gwDemo : Gateway where
  fetchChannel := fun cid => if cid = "1" then some ChannelKind.guildText else none
  fetchMessage := fun cid mid => cid == "1" && mid == "2"

/-- A concrete reference that parses to channel id "1", message id "2". -/
def urlDemo : String := "https://d/channels/9/1/2"

/-- A concrete reference whose channel resolves but whose message does not. -/
def urlDemo2 : String := "https://d/channels/9/1/3"

/-- The tracked_messages row produced by enabling urlDemo. -/
def demoRecord : TrackedMessage := ⟨urlDemo, "1", "2", 0⟩

/-- A state holding the durable row for urlDemo but no ActiveTask (the
post-crash shape: a TrackedRecord that outlived its ActiveTask). -/
def stOrphan : EngineState := ⟨∅, [demoRecord]⟩

/-- A state holding both the ActiveTask and the durable row for urlDemo. -/
def stBoth : EngineState := ⟨{urlDemo}, [demoRecord]⟩

/-- The empty engine state: no tasks, no rows. -/
def stEmpty : EngineState := ⟨∅, []⟩

example : parseMessageUrl urlDemo = some ⟨"1", "2"⟩ := by decide

/-- stopCleaning always leaves the map without the url, whether or not a
task existed. -/
theorem stopCleaning_snd (tasks : Finset String) (u : String) :
    (stopCleaning tasks u).2 = tasks.erase u := by
  unfold stopCleaning
  by_cases h : u ∈ tasks
  · simp [h]
  · simp [h, Finset.erase_eq_of_not_mem h]

/-- Folding erase over a list covering every element empties the set. -/
theorem foldl_erase_eq_empty (l : List String) :
    ∀ s : Finset String, (∀ x ∈ s, x ∈ l) →
      l.foldl (fun t u => t.erase u) s = ∅ := by
  induction l with
  | nil =>
      intro s hs
      exact Finset.eq_empty_of_forall_not_mem (fun x hx => by simpa using hs x hx)
  | cons a l ih =>
      intro s hs
      simp only [List.foldl_cons]
      apply ih
      intro x hx
      rcases Finset.mem_erase.mp hx with ⟨hxa, hxs⟩
      rcases List.mem_cons.mp (hs x hxs) with h | h
      · exact absurd h hxa
      · exact h

/-- stopAllTasks empties the task map. -/
theorem stopAllTasks_eq_empty (tasks : Finset String) : stopAllTasks tasks = ∅ := by
  unfold stopAllTasks
  simp only [stopCleaning_snd]
  exact foldl_erase_eq_empty _ tasks (fun x hx => (Finset.mem_sort _).mpr hx)

/-- Inversion of a successful startCleaning: the channel resolved to a
supported kind, the message resolved, no task existed, and the new map is the
old one plus the url. -/
theorem startCleaning_ok_inv (gw : Gateway) (tasks : Finset String) (u c m : String)
    (res : Finset String) (h : startCleaning gw tasks u c m = .ok res) :
    (∃ k, gw.fetchChannel c = some k ∧ (isTextLike k || isThreadKind k) = true ∧
      gw.fetchMessage c m = true) ∧ u ∉ tasks ∧ res = insert u tasks := by
  unfold startCleaning at h
  cases hc : gw.fetchChannel c with
  | none => simp [hc] at h
  | some k =>
      simp only [hc] at h
      by_cases hk : (isTextLike k || isThreadKind k) = true
      · rw [if_pos hk] at h
        by_cases hm : gw.fetchMessage c m = true
        · rw [if_pos hm] at h
          by_cases hu : u ∈ tasks
          · rw [if_pos hu] at h; exact absurd h (by simp)
          · rw [if_neg hu] at h
            refine ⟨⟨k, rfl, hk, hm⟩, hu, ?_⟩
            injection h with h
            exact h.symm
        · rw [if_neg hm] at h; exact absurd h (by simp)
      · rw [if_neg hk] at h
        by_cases hf : k = ChannelKind.guildForum
        · rw [if_pos hf] at h; exact absurd h (by simp)
        · rw [if_neg hf] at h; exact absurd h (by simp)

/-- A nonempty string has positive length. -/
theorem string_length_pos (s : String) (h : s ≠ "") : 0 < s.length := by
  cases s with
  | mk data =>
      cases data with
      | nil => exact absurd rfl h
      | cons a l => simp [String.length]

/-- Every path segment produced by urlPathParts is a nonempty string (the
filter at src/index.ts line 179 drops empty parts). -/
theorem urlPathParts_mem_ne_empty (s : String) (parts : List String)
    (h : urlPathParts s = some parts) : ∀ x ∈ parts, x ≠ "" := by
  unfold urlPathParts at h
  cases hs : splitScheme s.data with
  | none => rw [hs] at h; exact absurd h (by simp)
  | some pr =>
      obtain ⟨scheme, rest⟩ := pr
      simp only [hs] at h
      by_cases h1 : scheme = []
      · simp [h1] at h
      · rw [if_neg h1] at h
        cases hsp : splitOnChar '/' rest with
        | nil => rw [hsp] at h; exact absurd h (by simp)
        | cons host segs =>
            simp only [hsp] at h
            by_cases h2 : host = []
            · simp [h2] at h
            · rw [if_neg h2] at h
              injection h with h
              subst h
              intro x hx
              rcases List.mem_map.mp hx with ⟨l, hl, rfl⟩
              have hlne : l ≠ [] := by simpa using (List.mem_filter.mp hl).2
              intro hcon
              exact hlne (congrArg String.data hcon)

/-- Characterisation of parseMessageUrl on paths that pass the structural
check: segments at index 2 and 3 come back as channel id and message id. -/
theorem parse_index_characterisation (s : String) (parts : List String)
    (h : urlPathParts s = some parts) (h4 : 4 ≤ parts.length)
    (hc : parts.get? 0 = some "channels") :
    ∃ c m, parts.get? 2 = some c ∧ parts.get? 3 = some m ∧
      parseMessageUrl s = some ⟨c, m⟩ := by
  have h2 : 2 < parts.length := by omega
  have h3 : 3 < parts.length := by omega
  obtain ⟨c, hc2⟩ : ∃ c, parts.get? 2 = some c :=
    ⟨parts.get ⟨2, h2⟩, List.get?_eq_get h2⟩
  obtain ⟨m, hm3⟩ : ∃ m, parts.get? 3 = some m :=
    ⟨parts.get ⟨3, h3⟩, List.get?_eq_get h3⟩
  have hcne : c ≠ "" := urlPathParts_mem_ne_empty s parts h c (List.get?_mem hc2)
  have hmne : m ≠ "" := urlPathParts_mem_ne_empty s parts h m (List.get?_mem hm3)
  refine ⟨c, m, hc2, hm3, ?_⟩
  unfold parseMessageUrl
  simp only [h, hc2, hm3]
  rw [if_pos ⟨h4, hc⟩, if_pos ⟨string_length_pos c hcne, string_length_pos m hmne⟩]

/-- C4 counterexample: the reference given in the specification example does
not pass the structural check at all (the code requires at least four path
segments and a leading "channels" segment), so it yields InvalidReference
rather than a containerId and messageId pair. -/
theorem parse_containers_example_rejected :
    parseMessageUrl "https://platform/containers/111/222" = none := by decide

/-- C4 amended: for references whose structured path has at least four
nonempty segments and starts with the "channels" segment, parseMessageUrl
returns the segments at index 2 and 3 (which are the last two only when the
path has exactly four segments); a reference such as
"https://discord.com/channels/999/111/222" resolves to channel id "111" and
message id "222", while "not-a-url" yields InvalidReference. -/
theorem parseMessageUrl_amended :
    parseMessageUrl "https://discord.com/channels/999/111/222"
      = some ⟨"111", "222"⟩ ∧
    parseMessageUrl "not-a-url" = none ∧
    ∀ s parts, urlPathParts s = some parts → 4 ≤ parts.length →
      parts.get? 0 = some "channels" →
      ∃ c m, parts.get? 2 = some c ∧ parts.get? 3 = some m ∧
        parseMessageUrl s = some ⟨c, m⟩ := by
  exact ⟨by decide, by decide, fun s parts h h4 hc =>
    parse_index_characterisation s parts h h4 hc⟩

/-- C4 witness: the third part of the amended statement applied at the
concrete reference "https://d/channels/9/1/2". -/
theorem parseMessageUrl_amended_witness :
    ∃ c m, (["channels", "9", "1", "2"] : List String).get? 2 = some c ∧
      (["channels", "9", "1", "2"] : List String).get? 3 = some m ∧
      parseMessageUrl "https://d/channels/9/1/2" = some ⟨c, m⟩ :=
  parseMessageUrl_amended.2.2 "https://d/channels/9/1/2"
    ["channels", "9", "1", "2"] (by decide) (by decide) (by decide)

/-- C1: evaluating restoreCleaningTasks twice on a registry holding one
record whose channel and message both resolve. The first pass keeps the
record and registers its task; on the second pass the start attempt returns
AlreadyActive, and the code deletes the record from the durable registry
(contradicting both the claimed idempotence and the claim that an
AlreadyActive record is kept, and contradicting the source comment that a
row is removed only when the message or channel no longer exists). -/
theorem reconcile_second_run_deletes_live_record :
    (restoreCleaningTasks gwDemo stOrphan).records = [demoRecord] ∧
    urlDemo ∈ (restoreCleaningTasks gwDemo stOrphan).tasks ∧
    startCleaning gwDemo (restoreCleaningTasks gwDemo stOrphan).tasks
      demoRecord.message_url demoRecord.channel_id demoRecord.message_id
      = .error .alreadyActive ∧
    (restoreCleaningTasks gwDemo (restoreCleaningTasks gwDemo stOrphan)).records
      = [] := by
  decide

/-- C2 counterexample: a durable record exists for urlDemo but no ActiveTask
(stOrphan). The disable handler reports notRunning and never attempts the
durable deletion, so the record survives — the claim says stop always
attempts durable deletion and reports Stopped when the durable record was
removed. -/
theorem stop_orphan_record_not_deleted :
    disableOne true stOrphan urlDemo = (.notRunning, stOrphan) ∧
    stOrphan.records = [demoRecord] := by decide

/-- C2 amended: stop cancels and removes the ActiveTask if present and
deletes the durable record only in that case (a failed delete is swallowed);
it reports Stopped exactly when an ActiveTask existed, and on a reference
with no ActiveTask it reports notRunning and leaves both the task map and
the durable registry untouched, even when an orphaned TrackedRecord exists. -/
theorem stop_deletes_only_when_task_present (deleteOk : Bool) (st : EngineState)
    (url : String) (t : ResolvedTarget) (hp : parseMessageUrl url = some t) :
    ((disableOne deleteOk st url).1 = .stopped ↔ url ∈ st.tasks) ∧
    url ∉ (disableOne deleteOk st url).2.tasks ∧
    (url ∈ st.tasks →
      (disableOne deleteOk st url).2.records
        = if deleteOk then deleteByUrl st.records url else st.records) ∧
    (url ∉ st.tasks → (disableOne deleteOk st url).2 = st) := by
  unfold disableOne stopCleaning
  simp only [hp]
  by_cases h : url ∈ st.tasks
  · simp [h, Finset.not_mem_erase]
  · simp [h]

/-- C2 witness: the amended statement evaluated on the state holding both
the task and the record for urlDemo. -/
theorem stop_deletes_only_when_task_present_witness :
    ((disableOne true stBoth urlDemo).1 = .stopped ↔ urlDemo ∈ stBoth.tasks) ∧
    urlDemo ∉ (disableOne true stBoth urlDemo).2.tasks :=
  ⟨(stop_deletes_only_when_task_present true stBoth urlDemo ⟨"1", "2"⟩ (by decide)).1,
   (stop_deletes_only_when_task_present true stBoth urlDemo ⟨"1", "2"⟩ (by decide)).2.1⟩

/-- C3 counterexample: with TrackedRecords present but zero ActiveTasks, the
disable-all handler returns early after its "nothing is being cleaned" reply
and never clears the durable registry, so a TrackedRecord survives. -/
theorem disableAll_skips_db_when_no_tasks :
    disableAllCmd true stOrphan = stOrphan ∧ stOrphan.records ≠ [] := by decide

/-- C3 amended: whenever at least one ActiveTask exists (and the durable
clear succeeds), disableAll leaves zero ActiveTasks and zero TrackedRecords,
and invoking it a second time immediately afterwards preserves the empty
state; when no ActiveTask exists it returns early and leaves the registry
untouched. -/
theorem disableAll_clears_when_active (st : EngineState) (h : st.tasks ≠ ∅) :
    (disableAllCmd true st).tasks = ∅ ∧
    (disableAllCmd true st).records = [] ∧
    disableAllCmd true (disableAllCmd true st) = disableAllCmd true st := by
  unfold disableAllCmd
  rw [if_neg h]
  refine ⟨stopAllTasks_eq_empty _, rfl, ?_⟩
  simp [disableAllCmd, stopAllTasks_eq_empty]

/-- C3 witness: the amended statement evaluated on the state holding the
task and the record for urlDemo. -/
theorem disableAll_clears_when_active_witness :
    (disableAllCmd true stBoth).tasks = ∅ ∧
    (disableAllCmd true stBoth).records = [] ∧
    disableAllCmd true (disableAllCmd true stBoth) = disableAllCmd true stBoth :=
  disableAll_clears_when_active stBoth (by decide)

/-- C5: when startCleaning succeeded for the reference and the subsequent
database insert fails, the enable handler cancels the just-created task and
surfaces the persistence error, leaving the engine state exactly as before
the call: no ActiveTask survives without a durable record backing it. -/
theorem persistence_failure_rolls_back (gw : Gateway) (now : Nat)
    (st : EngineState) (url : String) (t : ResolvedTarget) (tasks : Finset String)
    (hp : parseMessageUrl url = some t)
    (hs : startCleaning gw st.tasks url t.channelId t.messageId = .ok tasks) :
    enableOne gw false now st url = (.persistenceError, st) ∧ url ∉ st.tasks := by
  obtain ⟨-, hu, htasks⟩ :=
    startCleaning_ok_inv gw st.tasks url t.channelId t.messageId tasks hs
  subst htasks
  refine ⟨?_, hu⟩
  unfold enableOne
  simp only [hp, hs]
  simp [stopCleaning_snd, Finset.erase_insert hu]

/-- C5 witness: the rollback evaluated at urlDemo starting from the empty
state with a failing insert. -/
theorem persistence_failure_rolls_back_witness :
    enableOne gwDemo false 0 stEmpty urlDemo = (.persistenceError, stEmpty) ∧
    urlDemo ∉ stEmpty.tasks :=
  persistence_failure_rolls_back gwDemo 0 stEmpty urlDemo ⟨"1", "2"⟩ {urlDemo}
    (by decide) (by decide)

/-- C6: a successful start followed immediately by another start on the same
reference yields AlreadyActive on the second call, the state is untouched by
the second call, and exactly one ActiveTask exists for the reference (the
task map gained exactly the one entry). -/
theorem start_twice_already_active (gw : Gateway) (n1 n2 : Nat)
    (st st2 : EngineState) (url : String)
    (h : enableOne gw true n1 st url = (.started, st2)) :
    enableOne gw true n2 st2 url = (.alreadyRunning, st2) ∧
    url ∈ st2.tasks ∧
    (st2.tasks.filter (fun u => u = url)).card = 1 ∧
    st2.tasks = insert url st.tasks := by
  unfold enableOne at h
  cases hp : parseMessageUrl url with
  | none => rw [hp] at h; exact absurd h (by simp)
  | some t =>
      simp only [hp] at h
      cases hs : startCleaning gw st.tasks url t.channelId t.messageId with
      | error e =>
          simp only [hs] at h
          cases e <;> simp at h
      | ok tasks =>
          simp only [hs, if_true] at h
          injection h with h1 h2
          subst h2
          obtain ⟨⟨k, hk1, hk2, hk3⟩, hu, htasks⟩ :=
            startCleaning_ok_inv gw st.tasks url t.channelId t.messageId tasks hs
          subst htasks
          have hmem : url ∈ insert url st.tasks := Finset.mem_insert_self url st.tasks
          refine ⟨?_, hmem, ?_, rfl⟩
          · unfold enableOne startCleaning
            simp [hp, hk1, hk2, hk3, hmem]
          · rw [Finset.filter_eq', if_pos hmem]
            exact Finset.card_singleton url

/-- C6 witness: starting urlDemo from the empty state and starting it again. -/
theorem start_twice_already_active_witness :
    enableOne gwDemo true 1 stBoth urlDemo = (.alreadyRunning, stBoth) ∧
    urlDemo ∈ stBoth.tasks ∧
    (stBoth.tasks.filter (fun u => u = urlDemo)).card = 1 ∧
    stBoth.tasks = insert urlDemo stEmpty.tasks :=
  start_twice_already_active gwDemo 0 1 stEmpty stBoth urlDemo (by decide)

/-- C7: when the reference parses and its channel resolves to a supported
kind but the message fetch fails, the enable handler reports the message
error and the state is exactly unchanged — no ActiveTask is created and no
TrackedRecord is inserted. -/
theorem start_message_not_found (gw : Gateway) (insertOk : Bool) (now : Nat)
    (st : EngineState) (url : String) (t : ResolvedTarget) (k : ChannelKind)
    (hp : parseMessageUrl url = some t)
    (hc : gw.fetchChannel t.channelId = some k)
    (hk : (isTextLike k || isThreadKind k) = true)
    (hm : gw.fetchMessage t.channelId t.messageId = false) :
    enableOne gw insertOk now st url = (.startFailed .messageNotFound, st) := by
  unfold enableOne startCleaning
  simp [hp, hc, hk, hm]

/-- C7 witness: urlDemo2 resolves its channel but not its message. -/
theorem start_message_not_found_witness :
    enableOne gwDemo true 0 stEmpty urlDemo2
      = (.startFailed .messageNotFound, stEmpty) :=
  start_message_not_found gwDemo true 0 stEmpty urlDemo2 ⟨"1", "3"⟩ .guildText
    (by decide) (by decide) (by decide) (by decide)

/-- A single event that does not stop the url preserves its task. -/
theorem stepEvent_preserves_mem (st : EngineState) (url : String) (e : BotEvent)
    (he : stopsUrl url e = false) (hm : url ∈ st.tasks) :
    url ∈ (stepEvent st e).tasks := by
  cases e with
  | fire u ok => exact hm
  | disableCmd u dOk =>
      have hne : u ≠ url := by simpa [stopsUrl] using he
      show url ∈ (disableOne dOk st u).2.tasks
      unfold disableOne stopCleaning
      cases hp : parseMessageUrl u with
      | none => exact hm
      | some t =>
          simp only
          by_cases h : u ∈ st.tasks
          · simp only [h, if_pos]
            exact Finset.mem_erase.mpr ⟨Ne.symm hne, hm⟩
          · simp only [h, if_neg, if_false]
            exact hm
  | disableAllEvt c => simp [stopsUrl] at he
  | shutdownEvt => simp [stopsUrl] at he

/-- Firings alone leave the engine state untouched. -/
theorem runEvents_fires_id (evs : List BotEvent) (st : EngineState)
    (hall : ∀ e ∈ evs, isFire e = true) : runEvents st evs = st := by
  induction evs generalizing st with
  | nil => rfl
  | cons e evs ih =>
      have hf := hall e (List.mem_cons_self e evs)
      cases e with
      | fire u ok =>
          show runEvents st evs = st
          exact ih st (fun x hx => hall x (List.mem_cons_of_mem _ hx))
      | disableCmd u d => simp [isFire] at hf
      | disableAllEvt c => simp [isFire] at hf
      | shutdownEvt => simp [isFire] at hf

/-- A trace with no stopping event for the url preserves its task. -/
theorem runEvents_preserves_mem (evs : List BotEvent) (st : EngineState)
    (url : String) (hmem : url ∈ st.tasks)
    (hnone : ∀ e ∈ evs, stopsUrl url e = false) :
    url ∈ (runEvents st evs).tasks := by
  induction evs generalizing st with
  | nil => exact hmem
  | cons e evs ih =>
      exact ih (stepEvent st e)
        (stepEvent_preserves_mem st url e (hnone e (List.mem_cons_self e evs)) hmem)
        (fun x hx => hnone x (List.mem_cons_of_mem _ hx))

/-- C8: a failing firing of the scheduled clear-reactions callback never
cancels the recurring task. Any trace made only of firings (successes or
failures) leaves the state untouched, any trace free of disable, disable-all
and shutdown events for the url keeps its ActiveTask registered, and the
task disappears only if one of those explicit events occurred. -/
theorem firing_failures_never_cancel (st : EngineState) (url : String)
    (evs : List BotEvent) (hmem : url ∈ st.tasks) :
    ((∀ e ∈ evs, isFire e = true) → runEvents st evs = st) ∧
    ((∀ e ∈ evs, stopsUrl url e = false) → url ∈ (runEvents st evs).tasks) ∧
    (url ∉ (runEvents st evs).tasks → ∃ e ∈ evs, stopsUrl url e = true) := by
  refine ⟨fun hall => runEvents_fires_id evs st hall,
          fun hnone => runEvents_preserves_mem evs st url hmem hnone,
          fun hout => ?_⟩
  by_contra hno
  push_neg at hno
  exact hout (runEvents_preserves_mem evs st url hmem
    (fun e he => by simpa using hno e he))

/-- C8 witness: two consecutive failing firings of the urlDemo task. -/
theorem firing_failures_never_cancel_witness :
    runEvents stBoth [.fire urlDemo false, .fire urlDemo false] = stBoth ∧
    urlDemo ∈ (runEvents stBoth [.fire urlDemo false, .fire urlDemo false]).tasks :=
  ⟨(firing_failures_never_cancel stBoth urlDemo
      [.fire urlDemo false, .fire urlDemo false] (by decide)).1 (by decide),
   (firing_failures_never_cancel stBoth urlDemo
      [.fire urlDemo false, .fire urlDemo false] (by decide)).2.1 (by decide)⟩

/-- C9: the SIGINT/SIGTERM shutdown path cancels every ActiveTask and closes
the database connection, and the durable registry rows are exactly the rows
from before the shutdown — nothing persisted is inserted, deleted or
modified. -/
theorem shutdown_preserves_registry (p : ProcState) :
    (shutdownProc p).engine.records = p.engine.records ∧
    (shutdownProc p).engine.tasks = ∅ ∧
    (shutdownProc p).dbOpen = false := by
  refine ⟨rfl, ?_, rfl⟩
  simp [shutdownProc, stopAllTasks_eq_empty]

/-- C10: startCleaning performs gateway resolution before the duplicate
check. Even when the reference already has an ActiveTask, a channel that no
longer resolves yields channelNotFound and an unresolvable message yields
messageNotFound; AlreadyActive is returned only when both the channel (of a
supported kind) and the message still resolve. -/
theorem resolution_precedes_duplicate_check (gw : Gateway) (tasks : Finset String)
    (url cid mid : String) (hmem : url ∈ tasks) :
    (gw.fetchChannel cid = none →
      startCleaning gw tasks url cid mid = .error .channelNotFound) ∧
    (∀ k, gw.fetchChannel cid = some k → (isTextLike k || isThreadKind k) = true →
      gw.fetchMessage cid mid = false →
      startCleaning gw tasks url cid mid = .error .messageNotFound) ∧
    (startCleaning gw tasks url cid mid = .error .alreadyActive →
      ∃ k, gw.fetchChannel cid = some k ∧ (isTextLike k || isThreadKind k) = true ∧
        gw.fetchMessage cid mid = true) := by
  refine ⟨?_, ?_, ?_⟩
  · intro hc; unfold startCleaning; simp [hc]
  · intro k hc hk hm; unfold startCleaning; simp [hc, hk, hm]
  · intro h
    unfold startCleaning at h
    cases hc : gw.fetchChannel cid with
    | none => rw [hc] at h; simp at h
    | some k =>
        simp only [hc] at h
        by_cases hk : (isTextLike k || isThreadKind k) = true
        · rw [if_pos hk] at h
          by_cases hm : gw.fetchMessage cid mid = true
          · exact ⟨k, rfl, hk, hm⟩
          · rw [if_neg hm] at h; simp at h
        · rw [if_neg hk] at h
          by_cases hf : k = ChannelKind.guildForum
          · rw [if_pos hf] at h; simp at h
          · rw [if_neg hf] at h; simp at h

/-- C10 witness: with the urlDemo task active, a dead channel id "7" gives
channelNotFound, a dead message id "3" gives messageNotFound, and the actual
AlreadyActive answer for the live target certifies that both resolved. -/
theorem resolution_precedes_duplicate_check_witness :
    startCleaning gwDemo {urlDemo} urlDemo "7" "2" = .error .channelNotFound ∧
    startCleaning gwDemo {urlDemo} urlDemo "1" "3" = .error .messageNotFound ∧
    (∃ k, gwDemo.fetchChannel "1" = some k ∧
      (isTextLike k || isThreadKind k) = true ∧ gwDemo.fetchMessage "1" "2" = true) :=
  ⟨(resolution_precedes_duplicate_check gwDemo {urlDemo} urlDemo "7" "2"
      (by decide)).1 (by decide),
   (resolution_precedes_duplicate_check gwDemo {urlDemo} urlDemo "1" "3"
      (by decide)).2.1 ChannelKind.guildText (by decide) (by decide) (by decide),
   (resolution_precedes_duplicate_check gwDemo {urlDemo} urlDemo "1" "2"
      (by decide)).2.2 (by decide)⟩

end ReactionCleaner
